import Mathlib

/-!
Verification development for the wenet streaming ASR runtime core.

This file shallowly embeds the two source files of the repository:

* `runtime/core/decoder/onnx_asr_model.cc` — the ONNX model adapter
  (`OnnxAsrModel::Reset`, `OnnxAsrModel::ForwardEncoderFunc`,
  `OnnxAsrModel::ComputeAttentionScore`, `OnnxAsrModel::AttentionRescoring`);
* `runtime/core/api/wenet_api.cc` — the `Recognizer` façade
  (`Recognizer::Decode`, `Recognizer::Reset`, `Recognizer::UpdateResult`,
  the configuration setters, and the C wrappers).

Floats are modelled as exact rationals (`Rat`); C++ `int`/`int64_t` as `Int`
with explicit truncating division (`Int.tdiv`) where the source divides.
The neural inference engine (ONNX Runtime sessions), the feature pipeline and
the inner `AsrDecoder` are external collaborators: their outputs enter the
embedding as explicit oracle parameters, while every piece of logic that is
present in the two source files (cache bookkeeping, mask construction, score
arithmetic, result assembly, the lazy-decoder state machine) is translated
faithfully.
-/

/-- A flat CPU tensor in the style of `Ort::Value::CreateTensor`: raw float
data together with its shape vector. -/
structure OrtTensor where
  data : List Rat
  shape : List Int
  deriving Repr, DecidableEq

/-- `GetTensorTypeAndShapeInfo().GetShape()[1]`: the time dimension of a
rank-3 tensor `[1, T, dim]`. -/
def OrtTensor.timeDim (t : OrtTensor) : Int :=
  t.shape.getD 1 0

/-- `std::vector<float>::resize(n, x)`: the first `n` existing elements are
kept, any newly created slots are filled with `x`. -/
def listResize (v : List Rat) (n : Nat) (x : Rat) : List Rat :=
  v.take n ++ List.replicate (n - v.length) x

/-- The integer metadata read from the encoder graph in `OnnxAsrModel::Read`
(source lines 86-112).  All values are C++ `int`. -/
structure OnnxMeta where
  encoder_output_size : Int
  num_blocks : Int
  head : Int
  cnn_module_kernel : Int
  subsampling_rate : Int
  right_context : Int
  sos : Int
  eos : Int
  is_bidirectional_decoder : Int
  chunk_size : Int
  num_left_chunks : Int
  deriving Repr, DecidableEq

/-- The mutable per-stream state of `OnnxAsrModel`: `offset_`,
`encoder_outs_`, the float vectors `att_cache_` / `cnn_cache_` backing the
initial cache tensors, the current cache tensors `att_cache_ort_` /
`cnn_cache_ort_`, and the inherited `cached_feature_` frame buffer. -/
structure ModelState where
  offset : Int
  encoder_outs : List OrtTensor
  att_cache : List Rat
  cnn_cache : List Rat
  att_cache_ort : OrtTensor
  cnn_cache_ort : OrtTensor
  cached_feature : List (List Rat)
  deriving Repr, DecidableEq

/-- The state of a freshly constructed `OnnxAsrModel`: all vectors empty,
`offset_ = 0`. -/
def initModelState : ModelState :=
  { offset := 0, encoder_outs := [], att_cache := [], cnn_cache := [],
    att_cache_ort := { data := [], shape := [] },
    cnn_cache_ort := { data := [], shape := [] },
    cached_feature := [] }

/-- `OnnxAsrModel::Reset` (source lines 172-203): zero `offset_`, clear
`encoder_outs_`, rebuild the attention cache tensor (pre-allocated zero-filled
of length `chunk_size * num_left_chunks` when `num_left_chunks > 0`, length-0
otherwise) and the convolution cache tensor.  `cached_feature_` is not
touched by this function. -/
def OnnxAsrModel.Reset (m : OnnxMeta) (s : ModelState) : ModelState :=
  let s1 := { s with offset := (0 : Int), encoder_outs := ([] : List OrtTensor) }
  let s2 :=
    if m.num_left_chunks > 0 then
      let required_cache_size := m.chunk_size * m.num_left_chunks
      let n := (Int.tdiv (m.num_blocks * m.head * required_cache_size *
        m.encoder_output_size) m.head * 2).toNat
      let v := listResize s1.att_cache n 0
      { s1 with offset := required_cache_size, att_cache := v,
                att_cache_ort :=
                  { data := v,
                    shape := [m.num_blocks, m.head, required_cache_size,
                              Int.tdiv m.encoder_output_size m.head * 2] } }
    else
      let v := listResize s1.att_cache 0 0
      { s1 with att_cache := v,
                att_cache_ort :=
                  { data := v,
                    shape := [m.num_blocks, m.head, 0,
                              Int.tdiv m.encoder_output_size m.head * 2] } }
  let cv := listResize s2.cnn_cache
    (m.num_blocks * m.encoder_output_size * (m.cnn_module_kernel - 1)).toNat 0
  { s2 with cnn_cache := cv,
            cnn_cache_ort :=
              { data := cv,
                shape := [m.num_blocks, 1, m.encoder_output_size,
                          m.cnn_module_kernel - 1] } }

/-- The `feats` buffer spliced in `OnnxAsrModel::ForwardEncoderFunc` (source
lines 210-224): `cached_feature_` rows first, then the `chunk_feats` rows,
each row read up to `feature_dim = chunk_feats[0].size()` entries. -/
def encoderChunkInput (cached_feature chunk_feats : List (List Rat)) : List Rat :=
  let feature_dim := (chunk_feats.headD []).length
  (cached_feature.map (fun row => row.take feature_dim)).flatten ++
    (chunk_feats.map (fun row => row.take feature_dim)).flatten

/-- The `att_mask` vector built in `OnnxAsrModel::ForwardEncoderFunc` (source
lines 236-250): size `required_cache_size + chunk_size`, all ones, and when
`num_left_chunks > 0` and `chunk_idx = offset / chunk_size - num_left_chunks`
is still below `num_left_chunks`, the leading
`(num_left_chunks - chunk_idx) * chunk_size` entries are zeroed. -/
def attMask (m : OnnxMeta) (offset : Int) : List Nat :=
  let required_cache_size := m.chunk_size * m.num_left_chunks
  let size := (required_cache_size + m.chunk_size).toNat
  if m.num_left_chunks > 0 then
    let chunk_idx := Int.tdiv offset m.chunk_size - m.num_left_chunks
    if chunk_idx < m.num_left_chunks then
      (List.range size).map (fun i =>
        if Int.ofNat i < (m.num_left_chunks - chunk_idx) * m.chunk_size then 0 else 1)
    else
      List.replicate size 1
  else
    List.replicate size 1

/-- The three outputs of one `encoder_session_->Run` call, in order:
`encoded, new_att_cache, new_cnn_cache`.  The session itself is an external
collaborator, so these arrive as an oracle. -/
structure EncOutputs where
  encoded : OrtTensor
  new_att_cache : OrtTensor
  new_cnn_cache : OrtTensor
  deriving Repr, DecidableEq

/-- `OnnxAsrModel::ForwardEncoderFunc` (source lines 205-298), state part:
advance `offset_` by the time dimension of `encoded`, replace both cache
tensors, append `encoded` to `encoder_outs_`, and copy the CTC output into
`out_prob` row by row.  `enc` and `ctc_out` are the outputs of the external
encoder and CTC sessions; `cached_feature_` is spliced into the session input
via `encoderChunkInput` and is not modified here. -/
def OnnxAsrModel.ForwardEncoderFunc (m : OnnxMeta) (s : ModelState)
    (chunk_feats : List (List Rat)) (enc : EncOutputs) (ctc_out : OrtTensor) :
    ModelState × List (List Rat) :=
  let _feats := encoderChunkInput s.cached_feature chunk_feats
  let _att_mask := attMask m s.offset
  let s' := { s with
    offset := s.offset + enc.encoded.timeDim,
    att_cache_ort := enc.new_att_cache,
    cnn_cache_ort := enc.new_cnn_cache,
    encoder_outs := s.encoder_outs ++ [enc.encoded] }
  let num_outputs := (ctc_out.shape.getD 1 0).toNat
  let output_dim := (ctc_out.shape.getD 2 0).toNat
  let out_prob := (List.range num_outputs).map
    (fun i => (ctc_out.data.drop (i * output_dim)).take output_dim)
  (s', out_prob)

/-- The summation loop of `OnnxAsrModel::ComputeAttentionScore` (source lines
304-306): starting at row `j`, add `prob(j * decode_out_len + hyp[j])` for
each remaining token. -/
def attnScoreAux (prob : Int → Rat) (decode_out_len : Int) : Int → List Int → Rat
  | _, [] => 0
  | j, t :: rest => prob (j * decode_out_len + t) +
      attnScoreAux prob decode_out_len (j + 1) rest

/-- `OnnxAsrModel::ComputeAttentionScore` (source lines 300-309): sum of
`prob[j * decode_out_len + hyp[j]]` over the hypothesis plus the trailing
`prob[len * decode_out_len + eos]` term.  `prob` is the flat float buffer the
C++ walks by pointer arithmetic. -/
def OnnxAsrModel.ComputeAttentionScore (prob : Int → Rat) (hyp : List Int)
    (eos decode_out_len : Int) : Rat :=
  attnScoreAux prob decode_out_len 0 hyp +
    prob ((hyp.length : Int) * decode_out_len + eos)

/-- `max_hyps_len` as accumulated in `OnnxAsrModel::AttentionRescoring`
(source lines 329-334): the maximum of `hyp.size() + 1` over all hypotheses,
starting from 0. -/
def maxHypsLen (hyps : List (List Int)) : Int :=
  hyps.foldl (fun mx h => max ((h.length : Int) + 1) mx) 0

/-- `OnnxAsrModel::AttentionRescoring` (source lines 311-416).  `score0` is
the caller-provided out-vector (resized to `num_hyps` entries filled with 0);
`L` and `R` are the flat left-to-right and right-to-left probability buffers
produced by the external decoder session, and `decode_out_len` its vocabulary
dimension.  Returns the score vector together with a flag telling whether the
decoder session was run (`false` on the two early-return guards). -/
def OnnxAsrModel.AttentionRescoring (m : OnnxMeta) (s : ModelState)
    (hyps : List (List Int)) (reverse_weight : Rat)
    (L R : Int → Rat) (decode_out_len : Int) (score0 : List Rat) :
    List Rat × Bool :=
  let num_hyps := hyps.length
  let scores := listResize score0 num_hyps 0
  if num_hyps = 0 then (scores, false)
  else if s.encoder_outs.length = 0 then (scores, false)
  else
    let max_hyps_len := maxHypsLen hyps
    ((List.range num_hyps).map (fun i =>
      let hyp := hyps.getD i []
      let score := OnnxAsrModel.ComputeAttentionScore
        (fun k => L (max_hyps_len * decode_out_len * (i : Int) + k))
        hyp m.eos decode_out_len
      let r_score : Rat :=
        if m.is_bidirectional_decoder ≠ 0 ∧ 0 < reverse_weight then
          OnnxAsrModel.ComputeAttentionScore
            (fun k => R (max_hyps_len * decode_out_len * (i : Int) + k))
            hyp.reverse m.eos decode_out_len
        else 0
      score * (1 - reverse_weight) + r_score * reverse_weight), true)

/-- One step of the model adapter within a stream: either `Reset` or one
`ForwardEncoderFunc` call (with its oracle session outputs). -/
inductive ModelOp
  | reset
  | forward (chunk_feats : List (List Rat)) (enc : EncOutputs) (ctc_out : OrtTensor)

/-- Run a sequence of model-adapter operations from a given state. -/
def runModelOps (m : OnnxMeta) : ModelState → List ModelOp → ModelState
  | s, [] => s
  | s, ModelOp.reset :: rest => runModelOps m (OnnxAsrModel.Reset m s) rest
  | s, ModelOp.forward c e t :: rest =>
      runModelOps m (OnnxAsrModel.ForwardEncoderFunc m s c e t).1 rest

/-- `wenet::DecodeState` as consumed by `Recognizer::Decode`. -/
inductive DecodeState
  | kEndBatch
  | kEndpoint
  | kWaitFeats
  | kEndFeats
  deriving Repr, DecidableEq

/-- One word piece of a decoding result (`word`, `start`, `end` in ms).
`end` is a Lean keyword, hence the trailing underscore. -/
structure WordPiece where
  word : String
  start : Int
  end_ : Int
  deriving Repr, DecidableEq

/-- One entry of `decoder_->result()` as read by `Recognizer::UpdateResult`:
a sentence plus its word pieces.  The inner `AsrDecoder` producing these is
external to the two source files. -/
structure DecodeResult where
  sentence : String
  word_pieces : List WordPiece
  deriving Repr, DecidableEq

/-- One entry of the serialized `nbest` array: the `word_pieces` field is
either present (`some`) or absent (`none`). -/
structure NbestEntry where
  sentence : String
  word_pieces : Option (List WordPiece)
  deriving Repr, DecidableEq

/-- The JSON document assembled by `Recognizer::UpdateResult` (before
`obj.dump()`; serialization to text is external). -/
structure ResultDoc where
  type : String
  nbest : List NbestEntry
  deriving Repr, DecidableEq

/-- The context-biasing graph configuration captured when the lazy decoder is
constructed (`Recognizer::Decode`, source lines 60-67): the phrase list and
the score in force at that moment. -/
structure ContextGraph where
  context : List String
  context_score : Rat
  deriving Repr, DecidableEq

/-- The part of the lazily constructed `wenet::AsrDecoder` visible to the
façade: the context graph captured at construction (or `none` when no context
phrase was registered) and the current result list.  The decoder internals
are external; `results` is updated through oracles. -/
structure AsrDecoderState where
  context_graph : Option ContextGraph
  results : List DecodeResult
  deriving Repr, DecidableEq

/-- The mutable fields of `class Recognizer` (source lines 134-147):
`decoder_` starts as `nullptr`, `nbest_ = 1`, `result_` empty,
`enable_timestamp_ = false`, `context_` empty.  `context_score_` has no
initializer in the C++, so the constructor takes its indeterminate value as a
parameter. -/
structure RecognizerState where
  decoder : Option AsrDecoderState
  nbest : Int
  result : Option ResultDoc
  enable_timestamp : Bool
  context : List String
  context_score : Rat
  deriving Repr, DecidableEq

/-- `Recognizer::Recognizer(model_dir)`: feature pipeline and resource are
built, the decoder is not (`decoder_ = nullptr`). -/
def Recognizer.init (context_score_junk : Rat) : RecognizerState :=
  { decoder := none, nbest := 1, result := none, enable_timestamp := false,
    context := [], context_score := context_score_junk }

/-- `Recognizer::UpdateResult` (source lines 99-121): type is
`"final_result"` or `"partial_result"`; at most `nbest` entries for a final
result and 1 for a partial one; `word_pieces` attached only when
`final_result && enable_timestamp_`. -/
def Recognizer.UpdateResult (nbest : Int) (enable_timestamp : Bool)
    (results : List DecodeResult) (final_result : Bool) : ResultDoc :=
  let ty := if final_result then ("final_result") else ("partial_result")
  let n := if final_result then nbest else 1
  let count := min n.toNat results.length
  { type := ty,
    nbest := (List.range count).map (fun i =>
      let r := results.getD i { sentence := (""), word_pieces := [] }
      { sentence := r.sentence,
        word_pieces :=
          if final_result ∧ enable_timestamp then some r.word_pieces
          else none }) }

/-- Store a freshly produced `decoder_->result()` list into the decoder
(the effect on `decoder_` of a `decoder_->Decode` or `Rescoring` call, whose
internals are external). -/
def setDecoderResults (s : RecognizerState) (res : List DecodeResult) :
    RecognizerState :=
  { s with decoder := s.decoder.map (fun d => { d with results := res }) }

/-- The `UpdateResult(final)` call inside `Recognizer::Decode`: recompute
`result_` from the current configuration and the decoder's current results. -/
def Recognizer.applyUpdateResult (s : RecognizerState) (final_result : Bool) :
    RecognizerState :=
  { s with result := some (Recognizer.UpdateResult s.nbest s.enable_timestamp
      ((s.decoder.map AsrDecoderState.results).getD []) final_result) }

/-- The `while (true)` loop of `Recognizer::Decode` (source lines 82-96).
Each oracle step carries the `DecodeState` returned by `decoder_->Decode`
together with the decoder's result list after that call; `rescored` is the
result list after `decoder_->Rescoring()`.  `kWaitFeats` breaks,
`kEndFeats` runs `UpdateResult(true); Rescoring(); UpdateResult(true)` and
breaks, anything else runs `UpdateResult(false)` and loops. -/
def Recognizer.decodeLoop (rescored : List DecodeResult) :
    RecognizerState → List (DecodeState × List DecodeResult) → RecognizerState
  | s, [] => s
  | s, (st, res) :: rest =>
    let s1 := setDecoderResults s res
    match st with
    | DecodeState.kWaitFeats => s1
    | DecodeState.kEndFeats =>
      let s2 := Recognizer.applyUpdateResult s1 true
      let s3 := setDecoderResults s2 rescored
      Recognizer.applyUpdateResult s3 true
    | _ => Recognizer.decodeLoop rescored (Recognizer.applyUpdateResult s1 false) rest

/-- The lazy decoder construction at the top of `Recognizer::Decode` (source
lines 59-70): on the first call, build the context graph from the phrases and
score registered so far (only when at least one phrase exists) and construct
the `AsrDecoder`; on later calls do nothing. -/
def Recognizer.initDecoder (s : RecognizerState) : RecognizerState :=
  match s.decoder with
  | some _ => s
  | none =>
      let cg : Option ContextGraph :=
        if s.context.length > 0 then
          some { context := s.context, context_score := s.context_score }
        else none
      { s with decoder := some { context_graph := cg, results := [] } }

/-- Outcome of one `Recognizer::Decode` call.  `fatal` models a failed glog
`CHECK`, which aborts the whole process; `invalidInput` is the recoverable
error kind named by the specification — this code never produces it. -/
inductive DecodeOutcome
  | ok (s : RecognizerState)
  | invalidInput (s : RecognizerState)
  | fatal
  deriving Repr, DecidableEq

/-- Whether an outcome is the recoverable `InvalidInput` error. -/
def DecodeOutcome.isInvalidInput : DecodeOutcome → Bool
  | DecodeOutcome.invalidInput _ => true
  | _ => false

/-- The successfully updated state of an outcome, if any. -/
def DecodeOutcome.okState : DecodeOutcome → Option RecognizerState
  | DecodeOutcome.ok s => some s
  | _ => none

/-- `Recognizer::Decode` (source lines 56-97): lazily construct the decoder,
then `CHECK_EQ(len % 2, 0)` — a fatal abort when the byte count is odd —
then convert the PCM bytes, feed the feature pipeline (both external), and
drive the decode loop.  `steps`/`rescored` are the oracle outputs of the
external `AsrDecoder`. -/
def Recognizer.Decode (s0 : RecognizerState) (len last : Int)
    (steps : List (DecodeState × List DecodeResult))
    (rescored : List DecodeResult) : DecodeOutcome :=
  let _ := last
  let s1 := Recognizer.initDecoder s0
  if len % 2 = 0 then
    DecodeOutcome.ok (Recognizer.decodeLoop rescored s1 steps)
  else
    DecodeOutcome.fatal

/-- `Recognizer::Reset` (source lines 50-54): `feature_pipeline_->Reset()`
(external), `decoder_->Reset()` — a null-pointer dereference when `decoder_`
was never constructed, modelled as `none` — and `result_.clear()`.  The
decoder's inner reset does not touch the captured context graph (nothing ever
rebuilds `resource_->context_graph`). -/
def Recognizer.Reset (s : RecognizerState) : Option RecognizerState :=
  match s.decoder with
  | none => none
  | some d => some { s with decoder := some d, result := none }

/-- `Recognizer::set_nbest` (source line 127). -/
def Recognizer.set_nbest (s : RecognizerState) (n : Int) : RecognizerState :=
  { s with nbest := n }

/-- `Recognizer::set_enable_timestamp` (source line 128). -/
def Recognizer.set_enable_timestamp (s : RecognizerState) (flag : Bool) :
    RecognizerState :=
  { s with enable_timestamp := flag }

/-- `Recognizer::AddContext` (source lines 129-131): append one phrase. -/
def Recognizer.AddContext (s : RecognizerState) (word : String) :
    RecognizerState :=
  { s with context := s.context ++ [word] }

/-- `Recognizer::set_context_score` (source line 132). -/
def Recognizer.set_context_score (s : RecognizerState) (score : Rat) :
    RecognizerState :=
  { s with context_score := score }

/-! ## Helper lemmas -/

theorem listResize_length (v : List Rat) (n : Nat) (x : Rat) :
    (listResize v n x).length = n := by
  simp [listResize, List.length_take]
  omega

theorem listResize_zero (v : List Rat) (n : Nat) (hv : ∀ x ∈ v, x = 0) :
    ∀ x ∈ listResize v n 0, x = 0 := by
  intro x hx
  rcases List.mem_append.1 hx with h | h
  · exact hv x (List.take_subset n v h)
  · exact List.eq_of_mem_replicate h

theorem listResize_nil (n : Nat) (x : Rat) :
    listResize [] n x = List.replicate n x := by
  simp [listResize]

theorem getD_range_map {α : Type} [Inhabited α] (n : Nat) (f : Nat → α) (i : Nat)
    (h : i < n) (d : α) : ((List.range n).map f).getD i d = f i := by
  rw [List.getD_eq_getElem?_getD, List.getElem?_map, List.getElem?_range h]
  rfl

/-- All per-stream vectors that back the initial cache tensors hold only
zeros. -/
def cacheVecsZero (s : ModelState) : Prop :=
  (∀ x ∈ s.att_cache, x = 0) ∧ (∀ x ∈ s.cnn_cache, x = 0)

theorem reset_cacheVecsZero (m : OnnxMeta) (s : ModelState)
    (h : cacheVecsZero s) : cacheVecsZero (OnnxAsrModel.Reset m s) := by
  obtain ⟨ha, hc⟩ := h
  unfold OnnxAsrModel.Reset
  dsimp only
  split
  · exact ⟨listResize_zero _ _ ha, listResize_zero _ _ hc⟩
  · exact ⟨listResize_zero _ _ ha, listResize_zero _ _ hc⟩

theorem forward_cacheVecsZero (m : OnnxMeta) (s : ModelState)
    (c : List (List Rat)) (e : EncOutputs) (t : OrtTensor)
    (h : cacheVecsZero s) :
    cacheVecsZero (OnnxAsrModel.ForwardEncoderFunc m s c e t).1 :=
  h

theorem runModelOps_cacheVecsZero (m : OnnxMeta) :
    ∀ (ops : List ModelOp) (s : ModelState), cacheVecsZero s →
      cacheVecsZero (runModelOps m s ops) := by
  intro ops
  induction ops with
  | nil => intro s h; exact h
  | cons op rest ih =>
    intro s h
    cases op with
    | reset => exact ih _ (reset_cacheVecsZero m s h)
    | forward c e t => exact ih _ (forward_cacheVecsZero m s c e t h)

theorem initModelState_cacheVecsZero : cacheVecsZero initModelState :=
  ⟨fun x hx => absurd hx (List.not_mem_nil x), fun x hx => absurd hx (List.not_mem_nil x)⟩

/-! ## C3: cached_feature across reset -/

/-- Small concrete metadata instance used by witnesses and counterexamples. -/
def mSmall : OnnxMeta :=
  { encoder_output_size := 1, num_blocks := 1, head := 1, cnn_module_kernel := 2,
    subsampling_rate := 4, right_context := 6, sos := 1, eos := 1,
    is_bidirectional_decoder := 1, chunk_size := 1, num_left_chunks := 1 }

/-- A model state that still caches one trailing frame of a previous
stream. -/
def sCached : ModelState :=
  { initModelState with cached_feature := [[(1 : Rat)]] }

/-- C3 counterexample: `OnnxAsrModel::Reset` does not clear
`cached_feature_`; on a state caching one frame, the buffer is still
non-empty after reset, contradicting the claim that it is cleared. -/
theorem reset_keeps_cached_feature_counterexample :
    (OnnxAsrModel.Reset mSmall sCached).cached_feature ≠ [] := by decide

/-- C3 (amended): `OnnxAsrModel::Reset` leaves `cached_feature_` exactly as
it was, so the first `ForwardEncoderFunc` of the next stream splices the
previous stream's cached frames in front of its chunk. -/
theorem reset_keeps_cached_feature (m : OnnxMeta) (s : ModelState)
    (chunk_feats : List (List Rat)) :
    (OnnxAsrModel.Reset m s).cached_feature = s.cached_feature
    ∧ encoderChunkInput (OnnxAsrModel.Reset m s).cached_feature chunk_feats
        = encoderChunkInput s.cached_feature chunk_feats := by
  have h : (OnnxAsrModel.Reset m s).cached_feature = s.cached_feature := by
    unfold OnnxAsrModel.Reset
    dsimp only
    split <;> rfl
  exact ⟨h, by rw [h]⟩

/-! ## C4: the shape and contents of the caches after reset -/

/-- The reset postcondition claimed by the specification, stated for the
state `s'` produced by `OnnxAsrModel.Reset`. -/
def resetSpecProp (m : OnnxMeta) (s' : ModelState) : Prop :=
  s'.offset = (if m.num_left_chunks > 0 then m.chunk_size * m.num_left_chunks else 0)
  ∧ s'.encoder_outs = []
  ∧ (∀ x ∈ s'.att_cache_ort.data, x = 0)
  ∧ (m.num_left_chunks > 0 →
      s'.att_cache_ort.shape
        = [m.num_blocks, m.head, m.chunk_size * m.num_left_chunks,
           Int.tdiv m.encoder_output_size m.head * 2]
      ∧ s'.att_cache_ort.data.length
        = (Int.tdiv (m.num_blocks * m.head * (m.chunk_size * m.num_left_chunks) *
            m.encoder_output_size) m.head * 2).toNat)
  ∧ (¬ m.num_left_chunks > 0 →
      s'.att_cache_ort.shape
        = [m.num_blocks, m.head, 0, Int.tdiv m.encoder_output_size m.head * 2]
      ∧ s'.att_cache_ort.data = [])
  ∧ (∀ x ∈ s'.cnn_cache_ort.data, x = 0)
  ∧ s'.cnn_cache_ort.shape
      = [m.num_blocks, 1, m.encoder_output_size, m.cnn_module_kernel - 1]
  ∧ s'.cnn_cache_ort.data.length
      = (m.num_blocks * m.encoder_output_size * (m.cnn_module_kernel - 1)).toNat

theorem reset_offset (m : OnnxMeta) (s : ModelState) :
    (OnnxAsrModel.Reset m s).offset
      = (if m.num_left_chunks > 0 then m.chunk_size * m.num_left_chunks else 0) := by
  unfold OnnxAsrModel.Reset
  dsimp only
  split <;> rfl

theorem reset_encoder_outs (m : OnnxMeta) (s : ModelState) :
    (OnnxAsrModel.Reset m s).encoder_outs = [] := by
  unfold OnnxAsrModel.Reset
  dsimp only
  split <;> rfl

theorem reset_att_ort (m : OnnxMeta) (s : ModelState) :
    (OnnxAsrModel.Reset m s).att_cache_ort
      = if m.num_left_chunks > 0 then
          { data := listResize s.att_cache
              ((Int.tdiv (m.num_blocks * m.head * (m.chunk_size * m.num_left_chunks) *
                 m.encoder_output_size) m.head * 2).toNat) 0,
            shape := [m.num_blocks, m.head, m.chunk_size * m.num_left_chunks,
                      Int.tdiv m.encoder_output_size m.head * 2] }
        else
          { data := listResize s.att_cache 0 0,
            shape := [m.num_blocks, m.head, 0,
                      Int.tdiv m.encoder_output_size m.head * 2] } := by
  unfold OnnxAsrModel.Reset
  dsimp only
  split <;> rfl

theorem reset_cnn_ort (m : OnnxMeta) (s : ModelState) :
    (OnnxAsrModel.Reset m s).cnn_cache_ort
      = { data := listResize s.cnn_cache
            (m.num_blocks * m.encoder_output_size * (m.cnn_module_kernel - 1)).toNat 0,
          shape := [m.num_blocks, 1, m.encoder_output_size,
                    m.cnn_module_kernel - 1] } := by
  unfold OnnxAsrModel.Reset
  dsimp only
  split <;> rfl

theorem reset_spec_of_zero (m : OnnxMeta) (s : ModelState)
    (ha : ∀ x ∈ s.att_cache, x = 0) (hc : ∀ x ∈ s.cnn_cache, x = 0) :
    resetSpecProp m (OnnxAsrModel.Reset m s) := by
  unfold resetSpecProp
  rw [reset_offset, reset_encoder_outs, reset_att_ort, reset_cnn_ort]
  refine ⟨rfl, rfl, ?_, ?_, ?_, listResize_zero _ _ hc, rfl, listResize_length _ _ _⟩
  · by_cases h : m.num_left_chunks > 0
    · rw [if_pos h]; exact listResize_zero _ _ ha
    · rw [if_neg h]; exact listResize_zero _ _ ha
  · intro h
    rw [if_pos h]
    exact ⟨rfl, listResize_length _ _ _⟩
  · intro h
    rw [if_neg h]
    exact ⟨rfl, by simp [listResize]⟩

/-- C4: after any call to `OnnxAsrModel::Reset` in any reachable run of the
adapter (any interleaving of resets and encoder chunks from construction),
`offset` is `chunk_size * num_left_chunks` when `num_left_chunks > 0` and 0
otherwise, `encoder_outs` is empty, the attention cache tensor is zero-filled
with shape `[num_blocks, head, chunk_size * num_left_chunks,
encoder_output_size / head * 2]` (zero cache length when
`num_left_chunks <= 0`), and the convolution cache tensor is zero-filled with
shape `[num_blocks, 1, encoder_output_size, cnn_module_kernel - 1]`. -/
theorem reset_state_spec (m : OnnxMeta) (ops : List ModelOp) :
    resetSpecProp m (OnnxAsrModel.Reset m (runModelOps m initModelState ops)) := by
  have h := runModelOps_cacheVecsZero m ops initModelState initModelState_cacheVecsZero
  exact reset_spec_of_zero m _ h.1 h.2

/-- C4 witness: the postcondition evaluated on a concrete run. -/
theorem reset_state_spec_witness :
    resetSpecProp mSmall (OnnxAsrModel.Reset mSmall (runModelOps mSmall initModelState [])) :=
  reset_state_spec mSmall []

/-! ## C6: offset monotonicity across consecutive chunks -/

/-- C6: over two consecutive `ForwardEncoderFunc` calls inside one stream,
`offset` never decreases and the increase across the second call equals the
time dimension of that call's encoder output. -/
theorem offset_monotone_step (m : OnnxMeta) (s : ModelState)
    (c1 c2 : List (List Rat)) (e1 e2 : EncOutputs) (t1 t2 : OrtTensor)
    (hdim : 0 ≤ e2.encoded.timeDim) :
    (OnnxAsrModel.ForwardEncoderFunc m s c1 e1 t1).1.offset ≤
      (OnnxAsrModel.ForwardEncoderFunc m
        (OnnxAsrModel.ForwardEncoderFunc m s c1 e1 t1).1 c2 e2 t2).1.offset
    ∧ (OnnxAsrModel.ForwardEncoderFunc m
        (OnnxAsrModel.ForwardEncoderFunc m s c1 e1 t1).1 c2 e2 t2).1.offset
      - (OnnxAsrModel.ForwardEncoderFunc m s c1 e1 t1).1.offset
      = e2.encoded.timeDim := by
  unfold OnnxAsrModel.ForwardEncoderFunc
  dsimp only
  exact ⟨by linarith, by ring⟩

/-- A concrete encoder-session output whose `encoded` tensor has time
dimension 2. -/
def encOutSmall : EncOutputs :=
  { encoded := { data := [], shape := [1, 2, 1] },
    new_att_cache := { data := [], shape := [] },
    new_cnn_cache := { data := [], shape := [] } }

/-- C6 witness: the monotone-offset property at a concrete pair of chunks. -/
theorem offset_monotone_step_witness :
    (0 : Int) ≤ encOutSmall.encoded.timeDim
    ∧ ((OnnxAsrModel.ForwardEncoderFunc mSmall initModelState [] encOutSmall
          { data := [], shape := [] }).1.offset ≤
        (OnnxAsrModel.ForwardEncoderFunc mSmall
          (OnnxAsrModel.ForwardEncoderFunc mSmall initModelState [] encOutSmall
            { data := [], shape := [] }).1 [] encOutSmall
          { data := [], shape := [] }).1.offset
      ∧ (OnnxAsrModel.ForwardEncoderFunc mSmall
          (OnnxAsrModel.ForwardEncoderFunc mSmall initModelState [] encOutSmall
            { data := [], shape := [] }).1 [] encOutSmall
          { data := [], shape := [] }).1.offset
        - (OnnxAsrModel.ForwardEncoderFunc mSmall initModelState [] encOutSmall
            { data := [], shape := [] }).1.offset
        = encOutSmall.encoded.timeDim) :=
  ⟨by decide,
    offset_monotone_step mSmall initModelState [] [] encOutSmall encOutSmall
      { data := [], shape := [] } { data := [], shape := [] } (by decide)⟩

/-! ## C2: odd PCM byte count -/

/-- C2 counterexample: decoding 3 bytes on a fresh recognizer trips the fatal
`CHECK_EQ(len % 2, 0)` assertion, which aborts the process; no recoverable
`InvalidInput` error is surfaced to the caller, contradicting the claim. -/
theorem odd_pcm_counterexample :
    Recognizer.Decode (Recognizer.init 0) 3 1 [] [] = DecodeOutcome.fatal
    ∧ (Recognizer.Decode (Recognizer.init 0) 3 1 [] []).isInvalidInput = false := by
  exact ⟨by decide, by decide⟩

/-- C2 (amended): every `Recognizer::Decode` call with an odd byte count hits
the fatal `CHECK_EQ(len % 2, 0)` and aborts, regardless of recognizer state;
the error is not surfaced as `InvalidInput` and nothing remains to reset. -/
theorem odd_pcm_fatal_check (s : RecognizerState) (len last : Int)
    (steps : List (DecodeState × List DecodeResult)) (rescored : List DecodeResult)
    (hodd : ¬ len % 2 = 0) :
    Recognizer.Decode s len last steps rescored = DecodeOutcome.fatal
    ∧ (Recognizer.Decode s len last steps rescored).isInvalidInput = false := by
  have h : Recognizer.Decode s len last steps rescored = DecodeOutcome.fatal := by
    unfold Recognizer.Decode
    simp [hodd]
  exact ⟨h, by rw [h]; rfl⟩

/-- C2 witness: the amended statement at byte count 3. -/
theorem odd_pcm_fatal_check_witness :
    ¬ (3 : Int) % 2 = 0
    ∧ (Recognizer.Decode (Recognizer.init 0) 3 1 [] [] = DecodeOutcome.fatal
       ∧ (Recognizer.Decode (Recognizer.init 0) 3 1 [] []).isInvalidInput = false) :=
  ⟨by decide, odd_pcm_fatal_check (Recognizer.init 0) 3 1 [] [] (by decide)⟩

/-! ## C9: attention rescoring early-return guards -/

/-- C9: when the hypothesis list is empty or no encoder output has been
accumulated, `AttentionRescoring` returns one 0.0 entry per hypothesis
(the out-vector arrives empty from the caller) and never runs the decoder
session. -/
theorem attention_rescoring_empty_guard (m : OnnxMeta) (s : ModelState)
    (hyps : List (List Int)) (reverse_weight : Rat) (L R : Int → Rat)
    (decode_out_len : Int)
    (h : hyps = [] ∨ s.encoder_outs = []) :
    (OnnxAsrModel.AttentionRescoring m s hyps reverse_weight L R decode_out_len []).1
        = List.replicate hyps.length 0
    ∧ (OnnxAsrModel.AttentionRescoring m s hyps reverse_weight L R decode_out_len []).2
        = false := by
  unfold OnnxAsrModel.AttentionRescoring
  dsimp only
  rcases h with h | h
  · subst h
    simp [listResize]
  · rw [h]
    by_cases hn : hyps.length = 0
    · simp [hn, listResize]
    · simp [hn, listResize]

/-- C9 witness: one hypothesis, empty `encoder_outs`. -/
theorem attention_rescoring_empty_guard_witness :
    (([[1]] : List (List Int)) = [] ∨ initModelState.encoder_outs = [])
    ∧ ((OnnxAsrModel.AttentionRescoring mSmall initModelState [[1]] 0
          (fun k => (k : Rat)) (fun k => (k : Rat)) 5 []).1
        = List.replicate ([[1]] : List (List Int)).length 0
      ∧ (OnnxAsrModel.AttentionRescoring mSmall initModelState [[1]] 0
          (fun k => (k : Rat)) (fun k => (k : Rat)) 5 []).2 = false) :=
  ⟨Or.inr rfl,
    attention_rescoring_empty_guard mSmall initModelState [[1]] 0
      (fun k => (k : Rat)) (fun k => (k : Rat)) 5 (Or.inr rfl)⟩

/-! ## C10: Reset requires a constructed decoder -/

theorem decodeLoop_decoder_isSome (rescored : List DecodeResult) :
    ∀ (steps : List (DecodeState × List DecodeResult)) (s : RecognizerState),
      ((Recognizer.decodeLoop rescored s steps).decoder).isSome = s.decoder.isSome := by
  intro steps
  induction steps with
  | nil => intro s; rfl
  | cons p rest ih =>
    intro s
    obtain ⟨st, res⟩ := p
    cases st with
    | kWaitFeats =>
      simp [Recognizer.decodeLoop, setDecoderResults]
    | kEndFeats =>
      simp [Recognizer.decodeLoop, setDecoderResults, Recognizer.applyUpdateResult]
    | kEndBatch =>
      rw [show Recognizer.decodeLoop rescored s ((DecodeState.kEndBatch, res) :: rest)
            = Recognizer.decodeLoop rescored
                (Recognizer.applyUpdateResult (setDecoderResults s res) false) rest from rfl,
        ih]
      simp [setDecoderResults, Recognizer.applyUpdateResult]
    | kEndpoint =>
      rw [show Recognizer.decodeLoop rescored s ((DecodeState.kEndpoint, res) :: rest)
            = Recognizer.decodeLoop rescored
                (Recognizer.applyUpdateResult (setDecoderResults s res) false) rest from rfl,
        ih]
      simp [setDecoderResults, Recognizer.applyUpdateResult]

theorem initDecoder_isSome (s : RecognizerState) :
    ((Recognizer.initDecoder s).decoder).isSome = true := by
  unfold Recognizer.initDecoder
  cases h : s.decoder <;> simp [h]

/-- C10: `Recognizer::Reset` dereferences `decoder_`, which is only
constructed by the first `Decode` call: on a freshly constructed recognizer
(and on any state whose decoder is still null) Reset is a null-pointer
dereference, while after any successful `Decode` the decoder exists and Reset
succeeds. -/
theorem reset_requires_decoder (junk : Rat) (s s' : RecognizerState)
    (len last : Int) (steps : List (DecodeState × List DecodeResult))
    (rescored : List DecodeResult)
    (hnull : s.decoder = none)
    (hok : Recognizer.Decode s len last steps rescored = DecodeOutcome.ok s') :
    (Recognizer.init junk).decoder = none
    ∧ Recognizer.Reset (Recognizer.init junk) = none
    ∧ Recognizer.Reset s = none
    ∧ s'.decoder.isSome = true
    ∧ (Recognizer.Reset s').isSome = true := by
  have hdec : s'.decoder.isSome = true := by
    unfold Recognizer.Decode at hok
    by_cases h2 : len % 2 = 0
    · simp only [h2, if_pos] at hok
      have hs' : Recognizer.decodeLoop rescored (Recognizer.initDecoder s) steps = s' := by
        injection hok
      rw [← hs', decodeLoop_decoder_isSome, initDecoder_isSome]
    · simp [h2] at hok
  refine ⟨rfl, rfl, ?_, hdec, ?_⟩
  · unfold Recognizer.Reset
    rw [hnull]
  · rcases Option.isSome_iff_exists.1 hdec with ⟨d, hd⟩
    unfold Recognizer.Reset
    rw [hd]
    rfl

/-- C10 witness: a fresh recognizer, one trivial decode call. -/
theorem reset_requires_decoder_witness :
    (Recognizer.init 0).decoder = none
    ∧ (Recognizer.Decode (Recognizer.init 0) 0 0 [] []
        = DecodeOutcome.ok (Recognizer.initDecoder (Recognizer.init 0)))
    ∧ ((Recognizer.init 0).decoder = none
      ∧ Recognizer.Reset (Recognizer.init 0) = none
      ∧ Recognizer.Reset (Recognizer.init 0) = none
      ∧ (Recognizer.initDecoder (Recognizer.init 0)).decoder.isSome = true
      ∧ (Recognizer.Reset (Recognizer.initDecoder (Recognizer.init 0))).isSome = true) :=
  ⟨rfl, by decide,
    reset_requires_decoder 0 (Recognizer.init 0) (Recognizer.initDecoder (Recognizer.init 0))
      0 0 [] [] rfl (by decide)⟩

/-! ## C5: the attention mask fed to the encoder graph -/

/-- C5: for a `ForwardEncoderFunc` call with `offset` as left by reset plus
`seen` fully emitted chunks (`offset = (num_left_chunks + seen) * chunk_size`,
the value reached when every chunk advances the offset by `chunk_size`), the
`att_mask` vector has length `required_cache_size + chunk_size`, and an entry
is zero exactly when fewer than `num_left_chunks` chunks have been seen and
the entry lies in the leading `(num_left_chunks - seen) * chunk_size`
positions; all other entries are one. -/
theorem att_mask_spec (m : OnnxMeta) (offset : Int) (seen : Nat)
    (hnlc : 0 < m.num_left_chunks) (hcs : 0 < m.chunk_size)
    (hoff : offset = (m.num_left_chunks + (seen : Int)) * m.chunk_size) :
    (attMask m offset).length = (m.chunk_size * m.num_left_chunks + m.chunk_size).toNat
    ∧ ∀ i, i < (attMask m offset).length →
        ((attMask m offset).getD i 1 = 0 ↔
          ((seen : Int) < m.num_left_chunks
            ∧ (i : Int) < (m.num_left_chunks - (seen : Int)) * m.chunk_size)) := by
  have hdiv : Int.tdiv offset m.chunk_size - m.num_left_chunks = (seen : Int) := by
    rw [hoff, Int.mul_tdiv_cancel _ (ne_of_gt hcs)]
    ring
  unfold attMask
  dsimp only
  rw [if_pos hnlc, hdiv]
  by_cases hseen : (seen : Int) < m.num_left_chunks
  · rw [if_pos hseen]
    constructor
    · rw [List.length_map, List.length_range]
    · intro i hi
      simp only [List.length_map, List.length_range] at hi
      rw [getD_range_map _ _ _ hi]
      simp only [Int.ofNat_eq_natCast]
      by_cases hz : (i : Int) < (m.num_left_chunks - (seen : Int)) * m.chunk_size
      · rw [if_pos hz]
        simp [hseen, hz]
      · rw [if_neg hz]
        simp [hz]
  · rw [if_neg hseen]
    constructor
    · simp
    · intro i hi
      simp only [List.length_replicate] at hi
      rw [List.getD_eq_getElem?_getD, List.getElem?_replicate, if_pos hi]
      simp [hseen]

/-- Metadata with `chunk_size = 2`, `num_left_chunks = 2` for the mask
witness. -/
def mMask : OnnxMeta :=
  { mSmall with chunk_size := 2, num_left_chunks := 2 }

/-- C5 witness: one chunk seen out of two left chunks, offset `(2+1)*2`. -/
theorem att_mask_spec_witness :
    0 < mMask.num_left_chunks ∧ 0 < mMask.chunk_size
    ∧ (6 : Int) = (mMask.num_left_chunks + ((1 : Nat) : Int)) * mMask.chunk_size
    ∧ ((attMask mMask 6).length
        = (mMask.chunk_size * mMask.num_left_chunks + mMask.chunk_size).toNat
      ∧ ∀ i, i < (attMask mMask 6).length →
          ((attMask mMask 6).getD i 1 = 0 ↔
            (((1 : Nat) : Int) < mMask.num_left_chunks
              ∧ (i : Int) < (mMask.num_left_chunks - ((1 : Nat) : Int)) * mMask.chunk_size))) :=
  ⟨by decide, by decide, by decide,
    att_mask_spec mMask 6 1 (by decide) (by decide) (by decide)⟩

/-! ## C8: word_pieces presence in serialized results -/

/-- C8: an nbest entry of a result document carries `word_pieces` exactly
when timestamps are enabled and the document is a final result; partial
results never carry `word_pieces`. -/
theorem word_pieces_iff_final_and_timestamp (nbest : Int)
    (enable_timestamp final_result : Bool) (results : List DecodeResult)
    (e : NbestEntry)
    (he : e ∈ (Recognizer.UpdateResult nbest enable_timestamp results final_result).nbest) :
    (e.word_pieces.isSome = true ↔
      (enable_timestamp = true
        ∧ (Recognizer.UpdateResult nbest enable_timestamp results final_result).type
            = ("final_result"))) := by
  unfold Recognizer.UpdateResult at he ⊢
  dsimp only at he ⊢
  rw [List.mem_map] at he
  obtain ⟨i, _, hei⟩ := he
  subst hei
  cases final_result <;> cases enable_timestamp <;> simp

/-- A concrete decoder result list for the C8 witness. -/
def res8 : List DecodeResult :=
  [{ sentence := ("hi"), word_pieces := [{ word := ("hi"), start := 0, end_ := 10 }] }]

/-- The entry that `UpdateResult` produces from `res8` with timestamps on. -/
def e8 : NbestEntry :=
  { sentence := ("hi"),
    word_pieces := some [{ word := ("hi"), start := 0, end_ := 10 }] }

/-- C8 witness: a final result with timestamps enabled. -/
theorem word_pieces_iff_final_and_timestamp_witness :
    e8 ∈ (Recognizer.UpdateResult 2 true res8 true).nbest
    ∧ (e8.word_pieces.isSome = true ↔
        (true = true
          ∧ (Recognizer.UpdateResult 2 true res8 true).type = ("final_result"))) :=
  ⟨by decide, word_pieces_iff_final_and_timestamp 2 true true res8 e8 (by decide)⟩

/-! ## C1: the attention-rescoring score formula -/

theorem attnScoreAux_eq_sum (f : Int → Rat) (dlen : Int) :
    ∀ (hyp : List Int) (j : Int),
      attnScoreAux f dlen j hyp
        = (Finset.range hyp.length).sum
            (fun t => f ((j + (t : Int)) * dlen + hyp.getD t 0)) := by
  intro hyp
  induction hyp with
  | nil => intro j; simp [attnScoreAux]
  | cons a rest ih =>
    intro j
    have hstep : attnScoreAux f dlen j (a :: rest)
        = f (j * dlen + a) + attnScoreAux f dlen (j + 1) rest := rfl
    rw [hstep, ih (j + 1), List.length_cons, Finset.sum_range_succ']
    have hsum : (Finset.range rest.length).sum
          (fun t => f ((j + 1 + (t : Int)) * dlen + rest.getD t 0))
        = (Finset.range rest.length).sum
            (fun t => f ((j + ((t + 1 : Nat) : Int)) * dlen + (a :: rest).getD (t + 1) 0)) := by
      apply Finset.sum_congr rfl
      intro t _
      rw [List.getD_cons_succ]
      congr 1
      push_cast
      ring
    rw [hsum]
    have hfirst : f (j * dlen + a) = f ((j + ((0 : Nat) : Int)) * dlen + (a :: rest).getD 0 0) := by
      rw [List.getD_cons_zero]
      congr 1
      push_cast
      ring
    rw [hfirst]
    exact add_comm _ _

/-- The specification's per-direction score, written directly from the spec's
words: sum of `probs[t, hyp[t]]` for `t = 0..len-1` plus `probs[len, eos]`,
with `P` the two-dimensional `[position, token]` view of one hypothesis's
probability block. -/
def specDirScore (P : Nat → Int → Rat) (hyp : List Int) (eos : Int) : Rat :=
  (Finset.range hyp.length).sum (fun t => P t (hyp.getD t 0)) + P hyp.length eos

theorem compute_eq_specDirScore (L : Int → Rat) (base dlen : Int)
    (hyp : List Int) (eos : Int) :
    OnnxAsrModel.ComputeAttentionScore (fun k => L (base + k)) hyp eos dlen
      = specDirScore (fun t v => L (base + (t : Int) * dlen + v)) hyp eos := by
  unfold OnnxAsrModel.ComputeAttentionScore specDirScore
  rw [attnScoreAux_eq_sum]
  congr 1
  · apply Finset.sum_congr rfl
    intro t _
    congr 1
    ring
  · show L (base + ((hyp.length : Int) * dlen + eos))
        = L (base + (hyp.length : Int) * dlen + eos)
    congr 1
    ring

/-- The left-to-right score of hypothesis `i`, per the specification, reading
the flat decoder output `L` through the two-dimensional view of block `i`. -/
def specLeftScore (hyps : List (List Int)) (L : Int → Rat)
    (decode_out_len eos : Int) (i : Nat) : Rat :=
  specDirScore
    (fun t v => L (maxHypsLen hyps * decode_out_len * (i : Int) +
      (t : Int) * decode_out_len + v))
    (hyps.getD i []) eos

/-- The right-to-left score of hypothesis `i`, per the specification: the
per-direction score of the reversed hypothesis, taken as 0 when the model is
unidirectional or `reverse_weight` is not positive. -/
def specRightScore (m : OnnxMeta) (hyps : List (List Int)) (reverse_weight : Rat)
    (R : Int → Rat) (decode_out_len : Int) (i : Nat) : Rat :=
  if m.is_bidirectional_decoder ≠ 0 ∧ 0 < reverse_weight then
    specDirScore
      (fun t v => R (maxHypsLen hyps * decode_out_len * (i : Int) +
        (t : Int) * decode_out_len + v))
      ((hyps.getD i []).reverse) m.eos
  else 0

/-- C1: on the non-degenerate path, `AttentionRescoring` returns
`left_score * (1 - reverse_weight) + r_score * reverse_weight` for each
hypothesis, where each directional score is the spec's sum
`Σ probs[t, hyp[t]] + probs[len, eos]`, the right-to-left score uses the
reversed hypothesis and is 0 whenever the model is unidirectional or
`reverse_weight = 0` (in which case the result is exactly the left score). -/
theorem attention_rescoring_score_formula (m : OnnxMeta) (s : ModelState)
    (hyps : List (List Int)) (reverse_weight : Rat) (L R : Int → Rat)
    (decode_out_len : Int) (score0 : List Rat) (i : Nat)
    (hhyps : hyps ≠ []) (henc : s.encoder_outs ≠ []) (hi : i < hyps.length) :
    (OnnxAsrModel.AttentionRescoring m s hyps reverse_weight L R
        decode_out_len score0).1.getD i 0
      = specLeftScore hyps L decode_out_len m.eos i * (1 - reverse_weight)
        + specRightScore m hyps reverse_weight R decode_out_len i * reverse_weight
    ∧ ((m.is_bidirectional_decoder = 0 ∨ reverse_weight = 0) →
        specRightScore m hyps reverse_weight R decode_out_len i = 0)
    ∧ (reverse_weight = 0 →
        (OnnxAsrModel.AttentionRescoring m s hyps reverse_weight L R
            decode_out_len score0).1.getD i 0
          = specLeftScore hyps L decode_out_len m.eos i) := by
  have hr0 : (m.is_bidirectional_decoder = 0 ∨ reverse_weight = 0) →
      specRightScore m hyps reverse_weight R decode_out_len i = 0 := by
    intro h
    unfold specRightScore
    rcases h with h | h
    · rw [if_neg]
      intro hc
      exact hc.1 h
    · rw [if_neg]
      intro hc
      exact absurd h (ne_of_gt hc.2)
  have hmain : (OnnxAsrModel.AttentionRescoring m s hyps reverse_weight L R
        decode_out_len score0).1.getD i 0
      = specLeftScore hyps L decode_out_len m.eos i * (1 - reverse_weight)
        + specRightScore m hyps reverse_weight R decode_out_len i * reverse_weight := by
    unfold OnnxAsrModel.AttentionRescoring
    dsimp only
    rw [if_neg (fun h => hhyps (List.length_eq_zero.1 h)),
      if_neg (fun h => henc (List.length_eq_zero.1 h))]
    dsimp only
    rw [getD_range_map _ _ _ hi]
    unfold specLeftScore specRightScore
    rw [compute_eq_specDirScore]
    by_cases hc : m.is_bidirectional_decoder ≠ 0 ∧ 0 < reverse_weight
    · rw [if_pos hc, if_pos hc, compute_eq_specDirScore]
    · rw [if_neg hc, if_neg hc]
  refine ⟨hmain, hr0, fun h => ?_⟩
  rw [hmain, hr0 (Or.inr h), h]
  ring

/-- A model state holding one encoder output, for the C1 witness. -/
def sEnc : ModelState :=
  { initModelState with encoder_outs := [{ data := [], shape := [] }] }

/-- The identity probability buffer used by witnesses. -/
def probId : Int → Rat := fun k => (k : Rat)

/-- C1 witness: one hypothesis `[2]`, `reverse_weight = 1/2`, bidirectional
metadata. -/
theorem attention_rescoring_score_formula_witness :
    (([[2]] : List (List Int)) ≠ [] ∧ sEnc.encoder_outs ≠ []
      ∧ 0 < ([[2]] : List (List Int)).length)
    ∧ ((OnnxAsrModel.AttentionRescoring mSmall sEnc [[2]] (1/2) probId probId 3 []).1.getD 0 0
        = specLeftScore [[2]] probId 3 mSmall.eos 0 * (1 - (1/2))
          + specRightScore mSmall [[2]] (1/2) probId 3 0 * (1/2)
      ∧ ((mSmall.is_bidirectional_decoder = 0 ∨ (1/2 : Rat) = 0) →
          specRightScore mSmall [[2]] (1/2) probId 3 0 = 0)
      ∧ ((1/2 : Rat) = 0 →
          (OnnxAsrModel.AttentionRescoring mSmall sEnc [[2]] (1/2) probId probId 3 []).1.getD 0 0
            = specLeftScore [[2]] probId 3 mSmall.eos 0)) :=
  ⟨⟨by decide, by decide, by decide⟩,
    attention_rescoring_score_formula mSmall sEnc [[2]] (1/2) probId probId 3 [] 0
      (by decide) (by decide) (by decide)⟩

/-! ## C7: when configuration mutations take effect -/

theorem setDecoderResults_context_graph (s : RecognizerState) (res : List DecodeResult) :
    ((setDecoderResults s res).decoder).map AsrDecoderState.context_graph
      = s.decoder.map AsrDecoderState.context_graph := by
  cases h : s.decoder <;> simp [setDecoderResults, h]

theorem applyUpdateResult_decoder (s : RecognizerState) (b : Bool) :
    (Recognizer.applyUpdateResult s b).decoder = s.decoder := rfl

theorem decodeLoop_context_graph (rescored : List DecodeResult) :
    ∀ (steps : List (DecodeState × List DecodeResult)) (s : RecognizerState),
      ((Recognizer.decodeLoop rescored s steps).decoder).map AsrDecoderState.context_graph
        = s.decoder.map AsrDecoderState.context_graph := by
  intro steps
  induction steps with
  | nil => intro s; rfl
  | cons p rest ih =>
    intro s
    obtain ⟨st, res⟩ := p
    cases st with
    | kWaitFeats => exact setDecoderResults_context_graph s res
    | kEndFeats =>
      show ((Recognizer.applyUpdateResult (setDecoderResults
          (Recognizer.applyUpdateResult (setDecoderResults s res) true) rescored)
            true).decoder).map AsrDecoderState.context_graph = _
      rw [applyUpdateResult_decoder, setDecoderResults_context_graph,
        applyUpdateResult_decoder, setDecoderResults_context_graph]
    | kEndBatch =>
      rw [show Recognizer.decodeLoop rescored s ((DecodeState.kEndBatch, res) :: rest)
            = Recognizer.decodeLoop rescored
                (Recognizer.applyUpdateResult (setDecoderResults s res) false) rest from rfl,
        ih, applyUpdateResult_decoder, setDecoderResults_context_graph]
    | kEndpoint =>
      rw [show Recognizer.decodeLoop rescored s ((DecodeState.kEndpoint, res) :: rest)
            = Recognizer.decodeLoop rescored
                (Recognizer.applyUpdateResult (setDecoderResults s res) false) rest from rfl,
        ih, applyUpdateResult_decoder, setDecoderResults_context_graph]

/-- The trace of the C7 counterexample: decode once on a fresh recognizer,
then `AddContext("A")`, then `Reset`, then decode again. -/
def c7trace : Option RecognizerState :=
  (Recognizer.Decode (Recognizer.init 0) 0 0 [(DecodeState.kWaitFeats, [])] []).okState.bind
    (fun s1 => (Recognizer.Reset (Recognizer.AddContext s1 ("A"))).bind
      (fun s3 => (Recognizer.Decode s3 0 0 [(DecodeState.kWaitFeats, [])] []).okState))

/-- C7 counterexample: a context phrase added after the first decode call does
not take effect after the next reset — at the end of the trace the registered
phrase list is `["A"]` but the decoder in use still has no context graph
(`some none`), because reset never rebuilds the lazily constructed decoder. -/
theorem config_after_first_decode_counterexample :
    c7trace.map (fun s => (s.decoder.map AsrDecoderState.context_graph, s.context))
      = some (some none, [("A")]) := by decide

/-- C7 (amended): mutations made before the first decode call take effect on
that stream — the first `Decode` builds the decoder from the phrases and score
configured at that moment.  After the first decode call the behaviour splits:
`set_nbest` (and likewise `set_enable_timestamp`) takes effect immediately on
the next emitted result, with no reset needed, while `AddContext` /
`set_context_score` never take effect again — neither `Decode` nor `Reset`
rebuilds the decoder or its captured context graph. -/
theorem config_mutation_semantics (s0 s1 : RecognizerState) (d : AsrDecoderState)
    (w : String) (sc : Rat) (n len last : Int)
    (steps : List (DecodeState × List DecodeResult))
    (res rescored : List DecodeResult)
    (hd : s1.decoder = some d) :
    (s0.decoder = none →
      ∀ s', Recognizer.Decode s0 len last steps rescored = DecodeOutcome.ok s' →
        s'.decoder.map AsrDecoderState.context_graph
          = some (if s0.context.length > 0 then
              some { context := s0.context, context_score := s0.context_score }
            else none))
    ∧ (∀ s2 s',
        Recognizer.Reset (Recognizer.set_context_score (Recognizer.AddContext s1 w) sc)
          = some s2 →
        Recognizer.Decode s2 len last steps rescored = DecodeOutcome.ok s' →
        s'.decoder.map AsrDecoderState.context_graph = some d.context_graph)
    ∧ (∀ s', Recognizer.Decode (Recognizer.set_nbest s1 n) len last
          [(DecodeState.kEndFeats, res)] rescored = DecodeOutcome.ok s' →
        s'.result = some (Recognizer.UpdateResult n s1.enable_timestamp rescored true)) := by
  refine ⟨?_, ?_, ?_⟩
  · intro h0 s' hok
    unfold Recognizer.Decode at hok
    by_cases h2 : len % 2 = 0
    · simp only [h2, if_pos] at hok
      have hs' : Recognizer.decodeLoop rescored (Recognizer.initDecoder s0) steps = s' := by
        injection hok
      rw [← hs', decodeLoop_context_graph]
      unfold Recognizer.initDecoder
      rw [h0]
      rfl
    · simp [h2] at hok
  · intro s2 s' hreset hok
    have hdec2 : s2.decoder = some d := by
      unfold Recognizer.Reset at hreset
      rw [show (Recognizer.set_context_score (Recognizer.AddContext s1 w) sc).decoder
            = s1.decoder from rfl, hd] at hreset
      dsimp only at hreset
      injection hreset with h
      rw [← h]
    unfold Recognizer.Decode at hok
    by_cases h2 : len % 2 = 0
    · simp only [h2, if_pos] at hok
      have hs' : Recognizer.decodeLoop rescored (Recognizer.initDecoder s2) steps = s' := by
        injection hok
      rw [← hs', decodeLoop_context_graph]
      unfold Recognizer.initDecoder
      rw [hdec2, hdec2]
      rfl
    · simp [h2] at hok
  · intro s' hok
    unfold Recognizer.Decode at hok
    by_cases h2 : len % 2 = 0
    · simp only [h2, if_pos] at hok
      have hinit : Recognizer.initDecoder (Recognizer.set_nbest s1 n)
          = Recognizer.set_nbest s1 n := by
        unfold Recognizer.initDecoder
        rw [show (Recognizer.set_nbest s1 n).decoder = s1.decoder from rfl, hd]
      rw [hinit] at hok
      have hs' : Recognizer.decodeLoop rescored (Recognizer.set_nbest s1 n)
          [(DecodeState.kEndFeats, res)] = s' := by
        injection hok
      rw [← hs']
      show (Recognizer.applyUpdateResult (setDecoderResults
          (Recognizer.applyUpdateResult (setDecoderResults (Recognizer.set_nbest s1 n) res)
            true) rescored) true).result = _
      unfold Recognizer.applyUpdateResult setDecoderResults Recognizer.set_nbest
      rw [hd]
      rfl
    · simp [h2] at hok

/-- The decoder state constructed by the first decode of a fresh
recognizer. -/
def dFresh : AsrDecoderState := { context_graph := none, results := [] }

/-- The C7 witness recognizer: a fresh recognizer after its first decode. -/
def s1w : RecognizerState := Recognizer.initDecoder (Recognizer.init 0)

/-- C7 witness: the amended mutation semantics at concrete inputs. -/
theorem config_mutation_semantics_witness :
    s1w.decoder = some dFresh
    ∧ (((Recognizer.init 0).decoder = none →
        ∀ s', Recognizer.Decode (Recognizer.init 0) 0 0 [(DecodeState.kWaitFeats, [])] []
            = DecodeOutcome.ok s' →
          s'.decoder.map AsrDecoderState.context_graph
            = some (if (Recognizer.init 0).context.length > 0 then
                some { context := (Recognizer.init 0).context,
                       context_score := (Recognizer.init 0).context_score }
              else none))
      ∧ (∀ s2 s',
          Recognizer.Reset (Recognizer.set_context_score (Recognizer.AddContext s1w ("A")) 5)
            = some s2 →
          Recognizer.Decode s2 0 0 [(DecodeState.kWaitFeats, [])] [] = DecodeOutcome.ok s' →
          s'.decoder.map AsrDecoderState.context_graph = some dFresh.context_graph)
      ∧ (∀ s', Recognizer.Decode (Recognizer.set_nbest s1w 2) 0 0
            [(DecodeState.kEndFeats, [])] [] = DecodeOutcome.ok s' →
          s'.result = some (Recognizer.UpdateResult 2 s1w.enable_timestamp [] true))) :=
  ⟨by decide,
    config_mutation_semantics (Recognizer.init 0) s1w dFresh ("A") 5 2 0 0
      [(DecodeState.kWaitFeats, [])] [] [] (by decide)⟩
